import Mathlib

/-!
Verification development for the barbatos communication / operator-execution
substrate (src/src/communication/communicator.cc and
src/src/operations/partial_reduce_op.cc), as a shallow embedding in Lean.

The MPI transport is modelled as an explicit network state (a list of
in-flight messages) plus boolean outcome oracles for the individual MPI
calls (Isend / Ssend / Wait / Mprobe / Mrecv), so that every communicator
function becomes a pure function from (oracle outcomes, network, arguments)
to (network, trace of issued operations, return value).
-/

namespace bbts

/-- Node identifier (`node_id_t`, an `int32_t` in the source). -/
abbrev node_id_t := Int

/-- Tensor identifier (`tid_t`). `-1` is the reserved "no tensor" sentinel. -/
abbrev tid_t := Int

/-- Modelled from the spec: the reserved tag for command dispatch
(`SEND_CMD_TAG` of the `com_tags` enum; `communicator.h` is not part of the
available source). The spec reserves three distinct tags and shifts all
application-chosen tags into a disjoint free range above them. -/
def SEND_CMD_TAG : Nat := 0

/-- Modelled from the spec: the reserved tag for command forwarding
(`FORWARD_CMD_TAG`). -/
def FORWARD_CMD_TAG : Nat := 1

/-- Modelled from the spec: the reserved tag for tensor-creation
notification (`NOTIFY_TENSOR_TAG`). -/
def NOTIFY_TENSOR_TAG : Nat := 2

/-- Modelled from the spec: the base of the free tag range (`FREE_TAG`);
every application-chosen tag `t` travels on the wire as `t + FREE_TAG`,
placing it strictly above the three reserved tags. -/
def FREE_TAG : Nat := 3

/-- A tensor reference inside a command: a tensor id plus its owning node
(the `tid_node_id_t` pairs returned by `command_t::get_input` /
`command_t::get_output`). -/
structure tensor_ref_t where
  tid : tid_t
  node : node_id_t
deriving DecidableEq

/-- Modelled from the spec: the in-memory `command_t` record
(`command.h` is not part of the available source). A command is a
self-describing record carrying its declared participant nodes and its
input and output tensor references (tid + owning node). -/
structure command_t where
  nodes : List node_id_t
  inputs : List tensor_ref_t
  outputs : List tensor_ref_t
deriving DecidableEq

/-- Appends a node to an accumulator unless it is already present; the
first-occurrence deduplication step. -/
def push_new (acc : List node_id_t) (n : node_id_t) : List node_id_t :=
  if n ∈ acc then acc else acc ++ [n]

/-- Modelled from the spec: `command_t::get_nodes()` (not in the available
source). The spec describes the dispatch destination set as "distinct nodes
named by `cmd`'s declared participants", so `get_nodes` yields each declared
participant node once (first occurrence order). -/
def command_t.get_nodes (c : command_t) : List node_id_t :=
  c.nodes.foldl push_new []

/-- `command_t::get_num_inputs()`. -/
def command_t.get_num_inputs (c : command_t) : Nat := c.inputs.length

/-- `command_t::get_num_outputs()`. -/
def command_t.get_num_outputs (c : command_t) : Nat := c.outputs.length

/-- Modelled from the spec: `command_t::num_bytes()` (not in the available
source); the total wire length is derivable from the record's own fields. -/
def command_t.num_bytes (c : command_t) : Nat :=
  16 + 8 * c.nodes.length + 16 * c.inputs.length + 16 * c.outputs.length

/-- An in-flight point-to-point message of the transport: source node,
destination node, wire tag, and a typed payload (one logical channel per
payload type). -/
structure message_t (α : Type) where
  src : node_id_t
  dest : node_id_t
  tag : Nat
  payload : α
deriving DecidableEq

/-- The transport state for one payload type: the list of in-flight
messages, in send order. -/
abbrev network_t (α : Type) := List (message_t α)

/-- One asynchronous send issued by `MPI_Isend`: the destination node, the
wire tag and the payload handed to the transport. A claim about "exactly one
send per destination" is a claim about this trace. -/
structure send_event_t (α : Type) where
  dest : node_id_t
  tag : Nat
  payload : α
deriving DecidableEq

/-- `mpi_communicator_t::send_sync` (communicator.cc line 34): a blocking
`MPI_Ssend` of the byte payload to `dest` on wire tag `tag + FREE_TAG`.
On success the message joins the in-flight network; the boolean result is
the `MPI_SUCCESS` check, given by the `ssendOk` oracle. -/
def send_sync (ssendOk : Bool) (net : network_t (List UInt8)) (me dest : node_id_t)
    (bytes : List UInt8) (tag : Nat) : network_t (List UInt8) × Bool :=
  (if ssendOk then net ++ [⟨me, dest, tag + FREE_TAG, bytes⟩] else net, ssendOk)

/-- `mpi_communicator_t::recv_sync` (communicator.cc line 27): a blocking
`MPI_Recv` from `src` on wire tag `tag + FREE_TAG`; yields the payload of
the first matching in-flight message (`none` models blocking forever). -/
def recv_sync (net : network_t (List UInt8)) (me src : node_id_t) (tag : Nat) :
    Option (List UInt8) :=
  (net.find? (fun m => m.dest = me && m.src = src && m.tag = tag + FREE_TAG)).map
    (fun m => m.payload)

/-- The probe descriptor built by `expect_request_sync`
(`mpi_communicator_t::sync_request_t`): success flag, probed source, probed
wire tag, probed byte count, and the probed (not yet consumed) message
payload standing for the `MPI_Message` handle. -/
structure sync_request_t where
  success : Bool
  src : node_id_t
  message_tag : Nat
  num_bytes : Nat
  payload : List UInt8
deriving DecidableEq

/-- `mpi_communicator_t::expect_request_sync` (communicator.cc line 89):
`MPI_Mprobe` for a message from `src` on wire tag `tag + FREE_TAG`; if the
probe call fails the returned request has `success = false`; otherwise the
first matching in-flight message is described (its byte count and tag) but
not consumed. `none` models blocking forever on an empty channel. -/
def expect_request_sync (probeOk : Bool) (net : network_t (List UInt8))
    (me src : node_id_t) (tag : Nat) : Option sync_request_t :=
  if probeOk = false then some ⟨false, 0, 0, 0, []⟩
  else
    (net.find? (fun m => m.dest = me && m.src = src && m.tag = tag + FREE_TAG)).map
      (fun m => ⟨true, m.src, m.tag, m.payload.length, m.payload⟩)

/-- `mpi_communicator_t::receive_request_sync` (communicator.cc line 112):
`MPI_Mrecv` consumes the previously probed message into a buffer of
`req.num_bytes` bytes; `none` is a failed receive. -/
def receive_request_sync (mrecvOk : Bool) (req : sync_request_t) :
    Option (List UInt8) :=
  if mrecvOk then some req.payload else none

/-- The loop body of the wait phase shared by `op_request` and
`forward_cmd` (communicator.cc lines 139 and 229):
`success = r.success && MPI_Wait(...) == MPI_SUCCESS && success;` —
`MPI_Wait` is short-circuited away when the Isend already failed. The state
is (indices waited on so far, running success flag); request `r` is (its
index, its Isend success). -/
def wait_step (waitOk : Nat → Bool) (p : List Nat × Bool) (r : Nat × Bool) :
    List Nat × Bool :=
  if r.2 then (p.1 ++ [r.1], waitOk r.1 && p.2) else (p.1, false)

/-- The wait phase over the whole request vector: folds `wait_step` from
(`[]`, `true`). -/
def wait_all (waitOk : Nat → Bool) (reqs : List (Nat × Bool)) :
    List Nat × Bool :=
  reqs.foldl (wait_step waitOk) ([], true)

/-- Appends a node to an accumulator unless it is the caller's own rank;
the filtering step of `op_request`'s destination loop (communicator.cc
lines 123-127). -/
def push_non_self (rank : node_id_t) (acc : List node_id_t) (n : node_id_t) :
    List node_id_t :=
  if n ≠ rank then acc ++ [n] else acc

/-- The destination list built by `op_request` (communicator.cc lines
121-127): every node of `get_nodes()` other than the caller's rank, pushed
in order. -/
def op_request_dest (rank : node_id_t) (c : command_t) : List node_id_t :=
  c.get_nodes.foldl (push_non_self rank) []

/-- `mpi_communicator_t::op_request` (communicator.cc line 118): one
`MPI_Isend` of the command's byte image on `SEND_CMD_TAG` per destination
node, then an `MPI_Wait` per successfully initiated request, folding the
success flags. Returns (issued sends, indices waited on, overall success);
`isendOk i` / `waitOk i` are the outcomes of the i-th Isend / Wait. -/
def op_request (rank : node_id_t) (isendOk waitOk : Nat → Bool) (c : command_t) :
    List (send_event_t command_t) × List Nat × Bool :=
  let dests := op_request_dest rank c
  let sends := dests.map (fun n => send_event_t.mk n SEND_CMD_TAG c)
  let reqs := (List.range dests.length).map (fun i => (i, isendOk i))
  (sends, wait_all waitOk reqs)

/-- Appends a tensor reference's owner node to an accumulator unless it is
the caller's own rank or already collected — the `std::find` deduplicating
step of `forward_cmd`'s destination loops (communicator.cc lines 203-217). -/
def push_owner (rank : node_id_t) (acc : List node_id_t) (r : tensor_ref_t) :
    List node_id_t :=
  if r.node ≠ rank ∧ r.node ∉ acc then acc ++ [r.node] else acc

/-- The destination list built by `forward_cmd` (continued): input owners
then output owners, folded through `push_owner`. -/
def forward_cmd_dest (rank : node_id_t) (c : command_t) : List node_id_t :=
  (c.inputs ++ c.outputs).foldl (push_owner rank) []

/-- `mpi_communicator_t::forward_cmd` (communicator.cc line 200): one
`MPI_Isend` of the command's byte image on `FORWARD_CMD_TAG` per collected
owner node, then the same wait/success fold as `op_request`. -/
def forward_cmd (rank : node_id_t) (isendOk waitOk : Nat → Bool) (c : command_t) :
    List (send_event_t command_t) × List Nat × Bool :=
  let dests := forward_cmd_dest rank c
  let sends := dests.map (fun n => send_event_t.mk n FORWARD_CMD_TAG c)
  let reqs := (List.range dests.length).map (fun i => (i, isendOk i))
  (sends, wait_all waitOk reqs)

/-- Modelled from the spec: the byte width of `tid_t` (`sizeof(bbts::tid_t)`;
the typedef lives in a header not in the available source). A tid is a
4-byte signed integer. -/
def tid_size : Nat := 4

/-- Little-endian byte image of one `tid_t` (two's complement, 4 bytes),
the wire form used by the tensor-notification channel. -/
def encode_tid (t : tid_t) : List UInt8 :=
  let n := (t % (2 ^ 32 : Int)).toNat
  [UInt8.ofNat (n % 256), UInt8.ofNat (n / 256 % 256),
   UInt8.ofNat (n / 256 ^ 2 % 256), UInt8.ofNat (n / 256 ^ 3 % 256)]

/-- Byte image of a tid vector (`tensor.data()` viewed as
`tensor.size() * sizeof(tid_t)` chars). -/
def encode_tids (ts : List tid_t) : List UInt8 :=
  ts.flatMap encode_tid

/-- Reads one `tid_t` back from 4 little-endian bytes (two's complement). -/
def decode_tid (b0 b1 b2 b3 : UInt8) : tid_t :=
  let n : Nat := b0.toNat + 256 * b1.toNat + 256 ^ 2 * b2.toNat + 256 ^ 3 * b3.toNat
  if n < 2 ^ 31 then (n : Int) else (n : Int) - 2 ^ 32

/-- The tid vector a receiver reconstructs from a byte payload: one tid per
full 4-byte group, `num_bytes / sizeof(tid_t)` entries in total, trailing
bytes beyond the last full group dropped (communicator.cc line 63 sizes the
vector as `_req.num_bytes / sizeof(bbts::tid_t)`). -/
def decode_tids : List UInt8 → List tid_t
  | b0 :: b1 :: b2 :: b3 :: rest => decode_tid b0 b1 b2 b3 :: decode_tids rest
  | _ => []

/-- `mpi_communicator_t::tensors_created_notification` (communicator.cc
line 44): a blocking `MPI_Ssend` of the tid vector's byte image to
`out_node` on `NOTIFY_TENSOR_TAG`. -/
def tensors_created_notification (ssendOk : Bool) (net : network_t (List UInt8))
    (rank out_node : node_id_t) (tensor : List tid_t) :
    network_t (List UInt8) × Bool :=
  (if ssendOk then net ++ [⟨rank, out_node, NOTIFY_TENSOR_TAG, encode_tids tensor⟩]
   else net, ssendOk)

/-- `mpi_communicator_t::receive_tensor_created_notification`
(communicator.cc line 48), given the pending message `m` that the blocking
`MPI_Mprobe` (any source, `NOTIFY_TENSOR_TAG`) matched: if the probe call
failed, returns `(-1, [])`; if the `MPI_Mrecv` failed, returns `(-1, [])`;
otherwise returns the probed source and the decoded tid vector. -/
def receive_tensor_created_notification (probeOk : Bool)
    (m : message_t (List UInt8)) (mrecvOk : Bool) : node_id_t × List tid_t :=
  if probeOk = false then (-1, [])
  else if mrecvOk = false then (-1, [])
  else (m.src, decode_tids m.payload)

/-- The notification receive lifted to the network: the blocking probe
matches the first in-flight message addressed to `me` on
`NOTIFY_TENSOR_TAG` from any source (`none` models blocking forever when no
such message exists and the probe call itself does not fail). -/
def recv_notification (probeOk mrecvOk : Bool) (net : network_t (List UInt8))
    (me : node_id_t) : Option (node_id_t × List tid_t) :=
  if probeOk = false then some (-1, [])
  else
    (net.find? (fun m => m.dest = me && m.tag = NOTIFY_TENSOR_TAG)).map
      (fun m => receive_tensor_created_notification true m mrecvOk)

/-- `mpi_communicator_t::shutdown_notification_handler` (communicator.cc
line 71): a blocking `MPI_Ssend` of the one-element tid vector `{-1}` to the
caller's own rank on `NOTIFY_TENSOR_TAG`. -/
def shutdown_notification_handler (ssendOk : Bool) (net : network_t (List UInt8))
    (rank : node_id_t) : network_t (List UInt8) × Bool :=
  tensors_created_notification ssendOk net rank rank [-1]

/-- `mpi_communicator_t::send_async` (communicator.cc line 79): a
non-blocking `MPI_Isend` on wire tag `tag + FREE_TAG`; the returned handle
records the initiation outcome. -/
def send_async (isendOk : Bool) (net : network_t (List UInt8)) (me dest : node_id_t)
    (bytes : List UInt8) (tag : Nat) : network_t (List UInt8) × Bool :=
  (if isendOk then net ++ [⟨me, dest, tag + FREE_TAG, bytes⟩] else net, isendOk)

/-! ### Tensor store and the partial reduce operator -/

/-- The reserved "no tensor" sentinel (`TID_NONE`): requesting a create with
this id asks the store for a freshly assigned id. -/
def TID_NONE : tid_t := -1

/-- Tensor metadata (`tensor_meta_t`): the storage-format id (`fmt_id`)
plus the format-specific part, kept abstract as a list of naturals. -/
structure tensor_meta_t where
  fmt_id : Nat
  blob : List Nat
deriving DecidableEq

instance : Inhabited tensor_meta_t := ⟨⟨0, []⟩⟩

/-- A tensor (`tensor_t`): its metadata header plus its content, kept
abstract as a list of integers. -/
structure tensor_t where
  meta : tensor_meta_t
  data : List Int
deriving DecidableEq

instance : Inhabited tensor_t := ⟨⟨default, []⟩⟩

/-- One store entry: the byte size reserved for the tensor and the tensor
value itself. -/
structure stored_t where
  size : Nat
  tensor : tensor_t
deriving DecidableEq

instance : Inhabited stored_t := ⟨⟨0, default⟩⟩

/-- The node-local tensor store content: an association list from tensor id
to entry, in allocation order. -/
abbrev storage_store_t := List (tid_t × stored_t)

/-- Looks a tensor id up in the store. -/
def store_lookup (st : storage_store_t) (t : tid_t) : Option stored_t :=
  (st.find? (fun e => e.1 = t)).map (fun e => e.2)

/-- The fresh tensor id the store assigns to the next `TID_NONE` create
request: one above the largest id in use (and at least 1, keeping it clear
of the `-1` sentinel). -/
def fresh_tid (st : storage_store_t) : tid_t :=
  (st.map (fun e => e.1)).foldl max 0 + 1

/-- Looks up every read tid; `none` as soon as one is absent. -/
def lookup_all (st : storage_store_t) : List tid_t → Option (List stored_t)
  | [] => some []
  | t :: ts =>
    match store_lookup st t, lookup_all st ts with
    | some v, some vs => some (v :: vs)
    | _, _ => none

/-- Modelled from the spec: `storage_t::local_transaction(reads, creates,
body)` (the storage component is not part of the available source). The
body receives, per read tid, the existing entry, and per create request, the
freshly assigned id with its reserved byte size; it returns its result
together with the final tensor values of the created slots, which the store
commits. A transaction the store denies (`txOk = false`) or whose read tids
are not all present runs no body and leaves the store unchanged (`none`). -/
def local_transaction {β : Type} (txOk : Bool) (st : storage_store_t)
    (reads : List tid_t) (creates : List Nat)
    (body : List stored_t → List (tid_t × Nat) → β × List tensor_t) :
    Option (storage_store_t × β) :=
  if txOk = false then none
  else
    match lookup_all st reads with
    | none => none
    | some gets =>
      let slots := (List.range creates.length).map
        (fun i => (fresh_tid st + Int.ofNat i, creates.getD i 0))
      let (b, outs) := body gets slots
      let newEntries := (slots.zip outs).map
        (fun e => (e.1.1, stored_t.mk e.1.2 e.2))
      some (st ++ newEntries, b)

/-- The tensor factory / format registry (`tensor_factory_t`), kept
abstract: `get_tensor_ftm` resolves a declared output type to a concrete
storage-format id, `get_tensor_size` computes a tensor's exact byte size
from its metadata. -/
structure tensor_factory_t where
  get_tensor_ftm : Nat → Nat
  get_tensor_size : tensor_meta_t → Nat

/-- The kernel descriptor (`ud_impl_t`), kept abstract: the declared output
type ids, the metadata-inference function (`get_out_meta`), and the compute
entry point (`call_ud`), which fills the output tensor's content from the
parameters, the two input tensors and the initialized output metadata. -/
structure ud_impl_t where
  outputTypes : List Nat
  get_out_meta : List Int → tensor_meta_t → tensor_meta_t → tensor_meta_t
  call_ud : List Int → tensor_t → tensor_t → tensor_meta_t → List Int

/-- The output metadata phase 1 derives (partial_reduce_op.cc lines 40-44):
the kernel's inferred metadata with its `fmt_id` overwritten by the format
id resolved from the kernel's first declared output type. -/
def reduce_out_meta (factory : tensor_factory_t) (ud : ud_impl_t)
    (params : List Int) (lm rm : tensor_meta_t) : tensor_meta_t :=
  { ud.get_out_meta params lm rm with
    fmt_id := factory.get_tensor_ftm (ud.outputTypes.headD 0) }

/-- The result of one run of the reduce operator's `apply()`: the store
after the call, the value of the `_out_tid` out-parameter after the call,
and whether both transactions ran. -/
structure reduce_apply_result_t where
  store : storage_store_t
  out_tid : tid_t
  ok : Bool
deriving DecidableEq

/-- `partial_reduce_op_t::apply()` (partial_reduce_op.cc line 26). Phase 1:
a read-only transaction over `[lhs, rhs]` reads both input metadata, infers
the output metadata, resolves its format id and computes the output byte
size. Phase 2: a second transaction locks `[lhs, rhs]` for read and
reserves one fresh slot of exactly that size; the body initializes the new
tensor with the phase-1 metadata, runs the kernel, and writes the assigned
id into the out-parameter. A denied transaction runs no body, so the
out-parameter keeps its prior value `out_tid0` and the store is unchanged.
`ok1` / `ok2` are the store's decisions for the two reservations. -/
def reduce_op_apply (factory : tensor_factory_t) (ud : ud_impl_t)
    (params : List Int) (lhs rhs : tid_t) (out_tid0 : tid_t)
    (ok1 ok2 : Bool) (st : storage_store_t) : reduce_apply_result_t :=
  match local_transaction ok1 st [lhs, rhs] []
    (fun gets _ =>
      let lm := (gets.getD 0 default).tensor.meta
      let rm := (gets.getD 1 default).tensor.meta
      let m := reduce_out_meta factory ud params lm rm
      ((m, factory.get_tensor_size m), [])) with
  | none => ⟨st, out_tid0, false⟩
  | some (st1, (out_meta, output_size)) =>
    match local_transaction ok2 st1 [lhs, rhs] [output_size]
      (fun gets slots =>
        let l := (gets.getD 0 default).tensor
        let r := (gets.getD 1 default).tensor
        let out : tensor_t := ⟨out_meta, ud.call_ud params l r out_meta⟩
        ((slots.getD 0 (TID_NONE, 0)).1, [out])) with
    | none => ⟨st1, out_tid0, false⟩
    | some (st2, new_id) => ⟨st2, new_id, true⟩

/-! ### Helper lemmas -/

theorem foldl_push_new_mem (l : List node_id_t) (acc : List node_id_t)
    (x : node_id_t) : x ∈ l.foldl push_new acc ↔ x ∈ acc ∨ x ∈ l := by
  induction l generalizing acc with
  | nil => simp
  | cons n t ih =>
    simp only [List.foldl_cons, push_new, List.mem_cons]
    split <;> rename_i hn
    · rw [ih]
      constructor
      · tauto
      · rintro (h | h | h)
        · exact Or.inl h
        · exact Or.inl (h ▸ hn)
        · exact Or.inr h
    · rw [ih]
      simp only [List.mem_append, List.mem_singleton]
      tauto

theorem foldl_push_new_nodup (l : List node_id_t) (acc : List node_id_t)
    (h : acc.Nodup) : (l.foldl push_new acc).Nodup := by
  induction l generalizing acc with
  | nil => simpa
  | cons n t ih =>
    simp only [List.foldl_cons, push_new]
    split
    · exact ih acc h
    · exact ih _ (by simp_all [List.nodup_append])

theorem get_nodes_mem (c : command_t) (x : node_id_t) :
    x ∈ c.get_nodes ↔ x ∈ c.nodes := by
  simp [command_t.get_nodes, foldl_push_new_mem]

theorem get_nodes_nodup (c : command_t) : c.get_nodes.Nodup :=
  foldl_push_new_nodup _ _ List.nodup_nil

theorem foldl_push_non_self (rank : node_id_t) (l acc : List node_id_t) :
    l.foldl (push_non_self rank) acc
      = acc ++ l.filter (fun n => n ≠ rank) := by
  induction l generalizing acc with
  | nil => simp
  | cons n t ih =>
    simp only [List.foldl_cons, push_non_self, List.filter_cons]
    split <;> simp_all

theorem op_request_dest_eq (rank : node_id_t) (c : command_t) :
    op_request_dest rank c = c.get_nodes.filter (fun n => n ≠ rank) := by
  simp [op_request_dest, foldl_push_non_self]

theorem op_request_dest_mem (rank : node_id_t) (c : command_t)
    (x : node_id_t) :
    x ∈ op_request_dest rank c ↔ x ∈ c.nodes ∧ x ≠ rank := by
  simp [op_request_dest_eq, List.mem_filter, get_nodes_mem]

theorem op_request_dest_nodup (rank : node_id_t) (c : command_t) :
    (op_request_dest rank c).Nodup := by
  rw [op_request_dest_eq]
  exact (get_nodes_nodup c).filter _

theorem push_owner_mem (rank : node_id_t) (acc : List node_id_t)
    (r : tensor_ref_t) (x : node_id_t) :
    x ∈ push_owner rank acc r ↔ x ∈ acc ∨ (x = r.node ∧ x ≠ rank) := by
  unfold push_owner
  split <;> rename_i hc
  · simp only [List.mem_append, List.mem_singleton]
    constructor
    · rintro (h | h)
      · exact Or.inl h
      · exact Or.inr ⟨h, h ▸ hc.1⟩
    · tauto
  · constructor
    · tauto
    · rintro (h | ⟨hx, hr⟩)
      · exact h
      · rcases not_and_or.mp hc with h1 | h1
        · exact absurd (hx.trans (not_not.mp h1)) hr
        · exact hx ▸ not_not.mp h1

theorem foldl_push_owner_mem (rank : node_id_t) (l : List tensor_ref_t)
    (acc : List node_id_t) (x : node_id_t) :
    x ∈ l.foldl (push_owner rank) acc
      ↔ x ∈ acc ∨ (x ≠ rank ∧ ∃ s ∈ l, s.node = x) := by
  induction l generalizing acc with
  | nil => simp
  | cons r t ih =>
    simp only [List.foldl_cons, ih, push_owner_mem, List.mem_cons]
    constructor
    · rintro ((h | ⟨h1, h2⟩) | ⟨h1, s, hs, hsx⟩)
      · exact Or.inl h
      · exact Or.inr ⟨h2, r, Or.inl rfl, h1.symm⟩
      · exact Or.inr ⟨h1, s, Or.inr hs, hsx⟩
    · rintro (h | ⟨h1, s, (hs | hs), hsx⟩)
      · exact Or.inl (Or.inl h)
      · exact Or.inl (Or.inr ⟨(hs ▸ hsx).symm, h1⟩)
      · exact Or.inr ⟨h1, s, hs, hsx⟩

theorem foldl_push_owner_nodup (rank : node_id_t) (l : List tensor_ref_t)
    (acc : List node_id_t) (h : acc.Nodup) :
    (l.foldl (push_owner rank) acc).Nodup := by
  induction l generalizing acc with
  | nil => simpa
  | cons r t ih =>
    simp only [List.foldl_cons, push_owner]
    split <;> rename_i hc
    · exact ih _ (by simp_all [List.nodup_append])
    · exact ih acc h

theorem forward_cmd_dest_mem (rank : node_id_t) (c : command_t)
    (x : node_id_t) :
    x ∈ forward_cmd_dest rank c
      ↔ x ≠ rank ∧ ∃ s ∈ c.inputs ++ c.outputs, s.node = x := by
  simp only [forward_cmd_dest, foldl_push_owner_mem, List.not_mem_nil,
    false_or]

theorem forward_cmd_dest_nodup (rank : node_id_t) (c : command_t) :
    (forward_cmd_dest rank c).Nodup :=
  foldl_push_owner_nodup _ _ _ List.nodup_nil

theorem wait_all_snd (waitOk : Nat → Bool) (reqs : List (Nat × Bool))
    (p : List Nat × Bool) :
    (reqs.foldl (wait_step waitOk) p).2
      = (p.2 && reqs.all (fun r => r.2 && waitOk r.1)) := by
  induction reqs generalizing p with
  | nil => simp
  | cons r t ih =>
    obtain ⟨ws, b⟩ := p
    simp only [List.foldl_cons, wait_step, List.all_cons]
    split <;> rename_i hs
    · rw [ih]
      simp only [hs, Bool.true_and]
      cases b <;> cases waitOk r.1 <;>
        cases (t.all fun r => r.2 && waitOk r.1) <;> simp
    · have hs' : r.2 = false := by revert hs; cases r.2 <;> simp
      rw [ih]
      simp [hs']

theorem wait_all_fst (waitOk : Nat → Bool) (reqs : List (Nat × Bool))
    (p : List Nat × Bool) (h : ∀ r ∈ reqs, r.2 = true) :
    (reqs.foldl (wait_step waitOk) p).1 = p.1 ++ reqs.map (fun r => r.1) := by
  induction reqs generalizing p with
  | nil => simp
  | cons r t ih =>
    simp only [List.foldl_cons, wait_step, h r (by simp), if_true, List.map_cons]
    rw [ih _ (fun r hr => h r (by simp [hr]))]
    simp

theorem decode_tids_length : ∀ bs : List UInt8,
    (decode_tids bs).length = bs.length / 4
  | [] => by simp [decode_tids]
  | [_] => by simp [decode_tids]
  | [_, _] => by simp [decode_tids]
  | [_, _, _] => by simp [decode_tids]
  | _ :: _ :: _ :: _ :: rest => by
    simp only [decode_tids, List.length_cons, decode_tids_length rest]
    omega

theorem decode_tids_take : ∀ bs : List UInt8,
    decode_tids (bs.take (4 * (bs.length / 4))) = decode_tids bs
  | [] => by simp [decode_tids]
  | [_] => by simp [decode_tids]
  | [_, _] => by simp [decode_tids]
  | [_, _, _] => by simp [decode_tids]
  | a :: b :: c :: d :: rest => by
    have harith : 4 * ((rest.length + 4) / 4) = 4 * (rest.length / 4) + 4 := by
      omega
    simp only [List.length_cons]
    have h4 : rest.length + 1 + 1 + 1 + 1 = rest.length + 4 := by omega
    rw [h4, harith]
    simp only [List.take_succ_cons, decode_tids, decode_tids_take rest]

theorem foldl_max_le_init (l : List Int) (a : Int) : a ≤ l.foldl max a := by
  induction l generalizing a with
  | nil => simp
  | cons b t ih => exact le_trans (le_max_left a b) (ih (max a b))

theorem mem_le_foldl_max : ∀ (l : List Int) (a x : Int), x ∈ l →
    x ≤ l.foldl max a
  | [], _, _, hx => by simp at hx
  | b :: t, a, x, hx => by
    simp only [List.foldl_cons]
    rcases List.mem_cons.mp hx with h | h
    · subst h
      exact le_trans (le_max_right a x) (foldl_max_le_init t (max a x))
    · exact mem_le_foldl_max t (max a b) x h

theorem store_lookup_fresh (st : storage_store_t) :
    store_lookup st (fresh_tid st) = none := by
  have hno : ∀ e ∈ st, ¬(e.1 = fresh_tid st) := by
    intro e he heq
    have hle := mem_le_foldl_max (st.map (fun e => e.1)) 0 e.1
      (List.mem_map_of_mem _ he)
    rw [heq, fresh_tid] at hle
    omega
  simp only [store_lookup]
  rw [List.find?_eq_none.mpr (fun e he => by simpa using hno e he)]
  rfl

theorem store_lookup_append_self (st : storage_store_t) (t : tid_t)
    (v : stored_t) (h : store_lookup st t = none) :
    store_lookup (st ++ [(t, v)]) t = some v := by
  have h' : st.find? (fun e => e.1 = t) = none := by
    by_contra hne
    rcases Option.ne_none_iff_exists'.mp hne with ⟨e, he⟩
    simp [store_lookup, he] at h
  simp [store_lookup, List.find?_append, h', List.find?]

theorem store_lookup_append_other (st : storage_store_t) (t : tid_t)
    (v : stored_t) (t' : tid_t) (h : t' ≠ t) :
    store_lookup (st ++ [(t, v)]) t' = store_lookup st t' := by
  simp only [store_lookup, List.find?_append]
  have h1 : List.find? (fun e => e.1 = t') [(t, v)] = none := by
    have hd : decide (t = t') = false := decide_eq_false (fun hh => h hh.symm)
    simp [List.find?, hd]
  rw [h1, Option.or_none]

theorem wait_all_range_snd (waitOk isendOk : Nat → Bool) (n : Nat) :
    (wait_all waitOk ((List.range n).map (fun i => (i, isendOk i)))).2 = true
      ↔ ∀ i < n, isendOk i = true ∧ waitOk i = true := by
  rw [wait_all, wait_all_snd]
  simp [List.all_eq_true, List.mem_range]

theorem wait_all_range_fst (waitOk isendOk : Nat → Bool) (n : Nat)
    (h : ∀ i < n, isendOk i = true) :
    (wait_all waitOk ((List.range n).map (fun i => (i, isendOk i)))).1
      = List.range n := by
  rw [wait_all, wait_all_fst]
  · rw [List.nil_append, List.map_map]
    have hc : ((fun (r : Nat × Bool) => r.1) ∘ fun i => (i, isendOk i)) = id :=
      rfl
    rw [hc, List.map_id]
  · intro r hr
    simp only [List.mem_map, List.mem_range] at hr
    rcases hr with ⟨i, hi, rfl⟩
    exact h i hi

theorem reduce_op_apply_eval (factory : tensor_factory_t) (ud : ud_impl_t)
    (params : List Int) (lhs rhs : tid_t) (out_tid0 : tid_t)
    (st : storage_store_t) (L R : stored_t)
    (hl : store_lookup st lhs = some L) (hr : store_lookup st rhs = some R) :
    reduce_op_apply factory ud params lhs rhs out_tid0 true true st
      = ⟨st ++ [(fresh_tid st,
          ⟨factory.get_tensor_size
             (reduce_out_meta factory ud params L.tensor.meta R.tensor.meta),
           ⟨reduce_out_meta factory ud params L.tensor.meta R.tensor.meta,
            ud.call_ud params L.tensor R.tensor
              (reduce_out_meta factory ud params L.tensor.meta
                R.tensor.meta)⟩⟩)],
         fresh_tid st, true⟩ := by
  have h1 : List.range 1 = [0] := rfl
  simp [reduce_op_apply, local_transaction, lookup_all, hl, hr, h1,
    List.range_zero]

theorem reduce_op_apply_denied (factory : tensor_factory_t) (ud : ud_impl_t)
    (params : List Int) (lhs rhs : tid_t) (out_tid0 : tid_t)
    (st : storage_store_t) (L R : stored_t)
    (hl : store_lookup st lhs = some L) (hr : store_lookup st rhs = some R) :
    reduce_op_apply factory ud params lhs rhs out_tid0 true false st
      = ⟨st, out_tid0, false⟩ := by
  simp [reduce_op_apply, local_transaction, lookup_all, hl, hr,
    List.range_zero]

/-! ### Claim theorems -/

/-- C1: for every command, `op_request` issues exactly one asynchronous
send on the CommandDispatch channel (`SEND_CMD_TAG`) per distinct node
named by the command's declared participants excluding the caller's own
rank — the issued destination list is duplicate-free and contains exactly
those nodes, every issued send carries the dispatch tag and the command —
it returns true exactly when every send initiation and every wait
succeeded, and when it returns true every issued send was waited on. -/
theorem op_request_one_dispatch_per_participant (rank : node_id_t)
    (isendOk waitOk : Nat → Bool) (c : command_t) :
    ((op_request rank isendOk waitOk c).1.map (fun e => e.dest)
        = op_request_dest rank c)
    ∧ ((op_request rank isendOk waitOk c).1.map (fun e => e.dest)).Nodup
    ∧ (∀ d, d ∈ (op_request rank isendOk waitOk c).1.map (fun e => e.dest)
        ↔ d ∈ c.nodes ∧ d ≠ rank)
    ∧ (∀ e ∈ (op_request rank isendOk waitOk c).1,
        e.tag = SEND_CMD_TAG ∧ e.payload = c)
    ∧ ((op_request rank isendOk waitOk c).2.2 = true
        ↔ ∀ i < (op_request rank isendOk waitOk c).1.length,
            isendOk i = true ∧ waitOk i = true)
    ∧ ((op_request rank isendOk waitOk c).2.2 = true
        → (op_request rank isendOk waitOk c).2.1
            = List.range (op_request rank isendOk waitOk c).1.length) := by
  have hmap : (op_request rank isendOk waitOk c).1.map (fun e => e.dest)
      = op_request_dest rank c := by
    have hc : ((fun (e : send_event_t command_t) => e.dest)
        ∘ fun n => send_event_t.mk n SEND_CMD_TAG c) = id := rfl
    simp [op_request, List.map_map, hc]
  have hlen : (op_request rank isendOk waitOk c).1.length
      = (op_request_dest rank c).length := by
    simp [op_request]
  refine ⟨hmap, ?_, ?_, ?_, ?_, ?_⟩
  · rw [hmap]; exact op_request_dest_nodup rank c
  · intro d; rw [hmap]; exact op_request_dest_mem rank c d
  · intro e he
    simp only [op_request, List.mem_map] at he
    rcases he with ⟨n, _, rfl⟩
    exact ⟨rfl, rfl⟩
  · rw [hlen]
    simpa [op_request] using
      wait_all_range_snd waitOk isendOk (op_request_dest rank c).length
  · intro hok
    have h := (wait_all_range_snd waitOk isendOk
      (op_request_dest rank c).length).mp (by simpa [op_request] using hok)
    rw [hlen]
    simpa [op_request] using
      wait_all_range_fst waitOk isendOk (op_request_dest rank c).length
        (fun i hi => (h i hi).1)

/-- C2: for every command, `forward_cmd` issues exactly one send on the
CommandForward channel (`FORWARD_CMD_TAG`) per distinct node owning a
tensor referenced in the command's inputs or outputs, excluding the
caller's own rank; the destination list is independent of the declared
participant list; and it returns true exactly when every send initiation
and every wait succeeded. -/
theorem forward_cmd_reaches_tensor_owners (rank : node_id_t)
    (isendOk waitOk : Nat → Bool) (c : command_t) :
    ((forward_cmd rank isendOk waitOk c).1.map (fun e => e.dest)
        = forward_cmd_dest rank c)
    ∧ ((forward_cmd rank isendOk waitOk c).1.map (fun e => e.dest)).Nodup
    ∧ (∀ d, d ∈ (forward_cmd rank isendOk waitOk c).1.map (fun e => e.dest)
        ↔ d ≠ rank ∧ ∃ s ∈ c.inputs ++ c.outputs, s.node = d)
    ∧ (∀ ns : List node_id_t,
        forward_cmd_dest rank ⟨ns, c.inputs, c.outputs⟩
          = forward_cmd_dest rank c)
    ∧ (∀ e ∈ (forward_cmd rank isendOk waitOk c).1,
        e.tag = FORWARD_CMD_TAG ∧ e.payload = c)
    ∧ ((forward_cmd rank isendOk waitOk c).2.2 = true
        ↔ ∀ i < (forward_cmd rank isendOk waitOk c).1.length,
            isendOk i = true ∧ waitOk i = true) := by
  have hmap : (forward_cmd rank isendOk waitOk c).1.map (fun e => e.dest)
      = forward_cmd_dest rank c := by
    have hc : ((fun (e : send_event_t command_t) => e.dest)
        ∘ fun n => send_event_t.mk n FORWARD_CMD_TAG c) = id := rfl
    simp [forward_cmd, List.map_map, hc]
  have hlen : (forward_cmd rank isendOk waitOk c).1.length
      = (forward_cmd_dest rank c).length := by
    simp [forward_cmd]
  refine ⟨hmap, ?_, ?_, ?_, ?_, ?_⟩
  · rw [hmap]; exact forward_cmd_dest_nodup rank c
  · intro d; rw [hmap]; exact forward_cmd_dest_mem rank c d
  · intro ns; rfl
  · intro e he
    simp only [forward_cmd, List.mem_map] at he
    rcases he with ⟨n, _, rfl⟩
    exact ⟨rfl, rfl⟩
  · rw [hlen]
    simpa [forward_cmd] using
      wait_all_range_snd waitOk isendOk (forward_cmd_dest rank c).length

/-- C10: when every node a command references equals the caller's own rank
— every declared participant for `op_request`, every input/output owner
for `forward_cmd` — both functions issue no sends at all, wait on nothing,
and return true. -/
theorem empty_destination_set_no_sends (rank : node_id_t)
    (isendOk waitOk : Nat → Bool) (c : command_t)
    (h1 : ∀ n ∈ c.nodes, n = rank)
    (h2 : ∀ s ∈ c.inputs ++ c.outputs, s.node = rank) :
    op_request rank isendOk waitOk c = ([], [], true)
    ∧ forward_cmd rank isendOk waitOk c = ([], [], true) := by
  have hop : op_request_dest rank c = [] := by
    rw [List.eq_nil_iff_forall_not_mem]
    intro d hd
    rcases (op_request_dest_mem rank c d).mp hd with ⟨hmem, hne⟩
    exact hne (h1 d hmem)
  have hfw : forward_cmd_dest rank c = [] := by
    rw [List.eq_nil_iff_forall_not_mem]
    intro d hd
    rcases (forward_cmd_dest_mem rank c d).mp hd with ⟨hne, s, hs, hsd⟩
    exact hne (hsd ▸ h2 s hs)
  constructor
  · simp [op_request, hop, wait_all]
  · simp [forward_cmd, hfw, wait_all]

/-- C10 witness: a command whose participants and tensor owners are all the
caller's node 0 produces no sends and succeeds. -/
theorem empty_destination_set_no_sends_witness :
    (∀ n ∈ (command_t.mk [0, 0] [⟨1, 0⟩] [⟨2, 0⟩]).nodes, n = (0 : Int))
    ∧ (∀ s ∈ (command_t.mk [0, 0] [⟨1, 0⟩] [⟨2, 0⟩]).inputs
          ++ (command_t.mk [0, 0] [⟨1, 0⟩] [⟨2, 0⟩]).outputs,
        s.node = (0 : Int))
    ∧ op_request 0 (fun _ => false) (fun _ => false)
        (command_t.mk [0, 0] [⟨1, 0⟩] [⟨2, 0⟩]) = ([], [], true)
    ∧ forward_cmd 0 (fun _ => false) (fun _ => false)
        (command_t.mk [0, 0] [⟨1, 0⟩] [⟨2, 0⟩]) = ([], [], true) :=
  ⟨by decide, by decide,
   (empty_destination_set_no_sends 0 (fun _ => false) (fun _ => false)
      (command_t.mk [0, 0] [⟨1, 0⟩] [⟨2, 0⟩]) (by decide) (by decide)).1,
   (empty_destination_set_no_sends 0 (fun _ => false) (fun _ => false)
      (command_t.mk [0, 0] [⟨1, 0⟩] [⟨2, 0⟩]) (by decide) (by decide)).2⟩

/-- C5: for every byte payload `P` and application tag `T`, a `send_sync`
of `P` from node A to node B on tag `T`, matched on B by
`expect_request_sync` (from A, tag `T`) followed by `receive_request_sync`,
probes a byte length equal to the length of `P` and yields a buffer
byte-identical to `P`. -/
theorem send_sync_expect_receive_roundtrip (P : List UInt8)
    (A B : node_id_t) (T : Nat) :
    (send_sync true [] A B P T).2 = true
    ∧ expect_request_sync true (send_sync true [] A B P T).1 B A T
        = some ⟨true, A, T + FREE_TAG, P.length, P⟩
    ∧ receive_request_sync true ⟨true, A, T + FREE_TAG, P.length, P⟩
        = some P := by
  refine ⟨rfl, ?_, rfl⟩
  simp [send_sync, expect_request_sync, List.find?]

/-- C6: every application-chosen tag `T` travels on the wire as
`T + FREE_TAG` — that is the tag `send_sync` and `send_async` stamp on the
message they inject, and the tag `recv_sync` / `expect_request_sync` match
on — and this effective tag is distinct from each of the three reserved
tags `SEND_CMD_TAG`, `FORWARD_CMD_TAG` and `NOTIFY_TENSOR_TAG`. -/
theorem free_tag_range_avoids_reserved_tags (T : Nat)
    (net : network_t (List UInt8)) (me dest : node_id_t)
    (bytes : List UInt8) :
    (send_sync true net me dest bytes T).1
        = net ++ [⟨me, dest, T + FREE_TAG, bytes⟩]
    ∧ (send_async true net me dest bytes T).1
        = net ++ [⟨me, dest, T + FREE_TAG, bytes⟩]
    ∧ T + FREE_TAG ≠ SEND_CMD_TAG
    ∧ T + FREE_TAG ≠ FORWARD_CMD_TAG
    ∧ T + FREE_TAG ≠ NOTIFY_TENSOR_TAG := by
  refine ⟨rfl, rfl, ?_, ?_, ?_⟩ <;>
    simp [FREE_TAG, SEND_CMD_TAG, FORWARD_CMD_TAG, NOTIFY_TENSOR_TAG]

/-- C7: `shutdown_notification_handler` sends, on the TensorNotify channel
addressed to the caller's own rank, exactly the byte image of the singleton
tid list `[-1]`; a thread parked in the notification receive on that node
then obtains the pair (own rank, `[-1]`). -/
theorem shutdown_notification_sends_sentinel (rank : node_id_t)
    (net : network_t (List UInt8)) (ssendOk : Bool) :
    shutdown_notification_handler ssendOk net rank
        = (if ssendOk
           then net ++ [⟨rank, rank, NOTIFY_TENSOR_TAG, encode_tids [-1]⟩]
           else net, ssendOk)
    ∧ decode_tids (encode_tids [-1]) = [-1]
    ∧ recv_notification true true
        (shutdown_notification_handler true [] rank).1 rank
        = some (rank, [-1]) := by
  refine ⟨rfl, by decide, ?_⟩
  simp [recv_notification, shutdown_notification_handler,
    tensors_created_notification, receive_tensor_created_notification,
    List.find?]
  decide

/-- C8: a `receive_tensor_created_notification` whose probe call or receive
call fails returns the pair `(-1, [])` as an ordinary value; otherwise it
returns the probed sender together with the decoded tid list of the first
pending TensorNotify message. -/
theorem receive_notification_error_returns_neg_one
    (probeOk mrecvOk : Bool) (net : network_t (List UInt8))
    (me : node_id_t) (m : message_t (List UInt8))
    (hfind : net.find? (fun x => x.dest = me && x.tag = NOTIFY_TENSOR_TAG)
        = some m) :
    receive_tensor_created_notification probeOk m mrecvOk
        = (if probeOk && mrecvOk then (m.src, decode_tids m.payload)
           else (-1, []))
    ∧ recv_notification probeOk mrecvOk net me
        = some (if probeOk && mrecvOk then (m.src, decode_tids m.payload)
                else (-1, [])) := by
  constructor
  · cases probeOk <;> cases mrecvOk <;>
      simp [receive_tensor_created_notification]
  · cases probeOk <;> cases mrecvOk <;>
      simp [recv_notification, hfind, receive_tensor_created_notification]

/-- C8 witness: with the probe reported as failed, the receive over a
network holding one pending notification returns `(-1, [])`. -/
theorem receive_notification_error_returns_neg_one_witness :
    receive_tensor_created_notification false
        ⟨3, 0, NOTIFY_TENSOR_TAG, encode_tids [5]⟩ true = (-1, []) :=
  by simpa using
    (receive_notification_error_returns_neg_one false true
      [⟨3, 0, NOTIFY_TENSOR_TAG, encode_tids [5]⟩] 0
      ⟨3, 0, NOTIFY_TENSOR_TAG, encode_tids [5]⟩ (by decide)).1

/-- C9: a successfully probed and received TensorNotify message of byte
length n yields exactly `n / sizeof(tid)` tensor ids, decoded from the
message prefix of `sizeof(tid) * (n / sizeof(tid))` bytes; trailing bytes
beyond the last full tid are dropped without any error indication. -/
theorem receive_notification_chops_payload (m : message_t (List UInt8)) :
    receive_tensor_created_notification true m true
        = (m.src, decode_tids m.payload)
    ∧ (decode_tids m.payload).length = m.payload.length / tid_size
    ∧ decode_tids m.payload
        = decode_tids
            (m.payload.take (tid_size * (m.payload.length / tid_size))) := by
  refine ⟨rfl, ?_, ?_⟩
  · rw [tid_size]; exact decode_tids_length m.payload
  · rw [tid_size]; exact (decode_tids_take m.payload).symm

/-- C3: for lhs and rhs present in the store, the reduce operator's
`apply()` with both reservations granted succeeds, writes the freshly
assigned tensor id (previously absent from the store) into the
out-parameter, and afterwards the store entry at that id carries exactly
the phase-1 inferred metadata (kernel inference with the resolved output
format id), a reserved size equal to the computed byte size of that
metadata, and content equal to the kernel's result; all other store entries
are unchanged. -/
theorem reduce_apply_materializes_inferred_output
    (factory : tensor_factory_t) (ud : ud_impl_t) (params : List Int)
    (lhs rhs out_tid0 : tid_t) (st : storage_store_t) (L R : stored_t)
    (hl : store_lookup st lhs = some L) (hr : store_lookup st rhs = some R) :
    (reduce_op_apply factory ud params lhs rhs out_tid0 true true st).ok
        = true
    ∧ (reduce_op_apply factory ud params lhs rhs out_tid0
          true true st).out_tid = fresh_tid st
    ∧ store_lookup st (fresh_tid st) = none
    ∧ store_lookup
        (reduce_op_apply factory ud params lhs rhs out_tid0
          true true st).store
        (reduce_op_apply factory ud params lhs rhs out_tid0
          true true st).out_tid
        = some ⟨factory.get_tensor_size
                  (reduce_out_meta factory ud params L.tensor.meta
                    R.tensor.meta),
                ⟨reduce_out_meta factory ud params L.tensor.meta
                   R.tensor.meta,
                 ud.call_ud params L.tensor R.tensor
                   (reduce_out_meta factory ud params L.tensor.meta
                     R.tensor.meta)⟩⟩
    ∧ ∀ t : tid_t,
        t ≠ (reduce_op_apply factory ud params lhs rhs out_tid0
              true true st).out_tid
        → store_lookup
            (reduce_op_apply factory ud params lhs rhs out_tid0
              true true st).store t
          = store_lookup st t := by
  have he := reduce_op_apply_eval factory ud params lhs rhs out_tid0 st L R
    hl hr
  rw [he]
  refine ⟨rfl, rfl, store_lookup_fresh st, ?_, ?_⟩
  · exact store_lookup_append_self st _ _ (store_lookup_fresh st)
  · intro t ht
    exact store_lookup_append_other st _ _ t ht

/-- C3 witness: a concrete two-tensor store, a blob-concatenating metadata
inference and a data-concatenating kernel; `apply()` succeeds and assigns
the fresh id. -/
theorem reduce_apply_materializes_inferred_output_witness :
    store_lookup [((1 : Int), stored_t.mk 4 ⟨⟨2, [4]⟩, [10]⟩),
        ((2 : Int), stored_t.mk 8 ⟨⟨3, [8]⟩, [20, 21]⟩)] 1
      = some (stored_t.mk 4 ⟨⟨2, [4]⟩, [10]⟩)
    ∧ store_lookup [((1 : Int), stored_t.mk 4 ⟨⟨2, [4]⟩, [10]⟩),
        ((2 : Int), stored_t.mk 8 ⟨⟨3, [8]⟩, [20, 21]⟩)] 2
      = some (stored_t.mk 8 ⟨⟨3, [8]⟩, [20, 21]⟩)
    ∧ (reduce_op_apply ⟨fun n => n + 10, fun m => m.blob.foldl (· + ·) 0⟩
        ⟨[7], fun _ l r => ⟨99, l.blob ++ r.blob⟩,
         fun p l r _ => p ++ l.data ++ r.data⟩ [0] 1 2 (-1) true true
        [((1 : Int), stored_t.mk 4 ⟨⟨2, [4]⟩, [10]⟩),
         ((2 : Int), stored_t.mk 8 ⟨⟨3, [8]⟩, [20, 21]⟩)]).ok = true
    ∧ (reduce_op_apply ⟨fun n => n + 10, fun m => m.blob.foldl (· + ·) 0⟩
        ⟨[7], fun _ l r => ⟨99, l.blob ++ r.blob⟩,
         fun p l r _ => p ++ l.data ++ r.data⟩ [0] 1 2 (-1) true true
        [((1 : Int), stored_t.mk 4 ⟨⟨2, [4]⟩, [10]⟩),
         ((2 : Int), stored_t.mk 8 ⟨⟨3, [8]⟩, [20, 21]⟩)]).out_tid
      = fresh_tid [((1 : Int), stored_t.mk 4 ⟨⟨2, [4]⟩, [10]⟩),
         ((2 : Int), stored_t.mk 8 ⟨⟨3, [8]⟩, [20, 21]⟩)] :=
  ⟨by decide, by decide,
   (reduce_apply_materializes_inferred_output
      ⟨fun n => n + 10, fun m => m.blob.foldl (· + ·) 0⟩
      ⟨[7], fun _ l r => ⟨99, l.blob ++ r.blob⟩,
       fun p l r _ => p ++ l.data ++ r.data⟩ [0] 1 2 (-1)
      [((1 : Int), stored_t.mk 4 ⟨⟨2, [4]⟩, [10]⟩),
       ((2 : Int), stored_t.mk 8 ⟨⟨3, [8]⟩, [20, 21]⟩)]
      (stored_t.mk 4 ⟨⟨2, [4]⟩, [10]⟩) (stored_t.mk 8 ⟨⟨3, [8]⟩, [20, 21]⟩)
      (by decide) (by decide)).1,
   (reduce_apply_materializes_inferred_output
      ⟨fun n => n + 10, fun m => m.blob.foldl (· + ·) 0⟩
      ⟨[7], fun _ l r => ⟨99, l.blob ++ r.blob⟩,
       fun p l r _ => p ++ l.data ++ r.data⟩ [0] 1 2 (-1)
      [((1 : Int), stored_t.mk 4 ⟨⟨2, [4]⟩, [10]⟩),
       ((2 : Int), stored_t.mk 8 ⟨⟨3, [8]⟩, [20, 21]⟩)]
      (stored_t.mk 4 ⟨⟨2, [4]⟩, [10]⟩) (stored_t.mk 8 ⟨⟨3, [8]⟩, [20, 21]⟩)
      (by decide) (by decide)).2.1⟩

/-- C4: when the store denies the phase-2 reservation, `apply()` fails, the
out-parameter keeps its prior value, the store is exactly what it was
before the call, and in particular no entry exists at the id the store
would have assigned. -/
theorem reduce_apply_denied_leaves_store_untouched
    (factory : tensor_factory_t) (ud : ud_impl_t) (params : List Int)
    (lhs rhs out_tid0 : tid_t) (st : storage_store_t) (L R : stored_t)
    (hl : store_lookup st lhs = some L) (hr : store_lookup st rhs = some R) :
    reduce_op_apply factory ud params lhs rhs out_tid0 true false st
        = ⟨st, out_tid0, false⟩
    ∧ store_lookup
        (reduce_op_apply factory ud params lhs rhs out_tid0
          true false st).store (fresh_tid st) = none := by
  have he := reduce_op_apply_denied factory ud params lhs rhs out_tid0 st L R
    hl hr
  exact ⟨he, by rw [he]; exact store_lookup_fresh st⟩

/-- C4 witness: the concrete instance of C3's witness with the phase-2
reservation denied; the store and the out-parameter value `-1` survive
unchanged and the call reports failure. -/
theorem reduce_apply_denied_leaves_store_untouched_witness :
    store_lookup [((1 : Int), stored_t.mk 4 ⟨⟨2, [4]⟩, [10]⟩),
        ((2 : Int), stored_t.mk 8 ⟨⟨3, [8]⟩, [20, 21]⟩)] 1
      = some (stored_t.mk 4 ⟨⟨2, [4]⟩, [10]⟩)
    ∧ store_lookup [((1 : Int), stored_t.mk 4 ⟨⟨2, [4]⟩, [10]⟩),
        ((2 : Int), stored_t.mk 8 ⟨⟨3, [8]⟩, [20, 21]⟩)] 2
      = some (stored_t.mk 8 ⟨⟨3, [8]⟩, [20, 21]⟩)
    ∧ reduce_op_apply ⟨fun n => n + 10, fun m => m.blob.foldl (· + ·) 0⟩
        ⟨[7], fun _ l r => ⟨99, l.blob ++ r.blob⟩,
         fun p l r _ => p ++ l.data ++ r.data⟩ [0] 1 2 (-1) true false
        [((1 : Int), stored_t.mk 4 ⟨⟨2, [4]⟩, [10]⟩),
         ((2 : Int), stored_t.mk 8 ⟨⟨3, [8]⟩, [20, 21]⟩)]
      = ⟨[((1 : Int), stored_t.mk 4 ⟨⟨2, [4]⟩, [10]⟩),
          ((2 : Int), stored_t.mk 8 ⟨⟨3, [8]⟩, [20, 21]⟩)], -1, false⟩ :=
  ⟨by decide, by decide,
   (reduce_apply_denied_leaves_store_untouched
      ⟨fun n => n + 10, fun m => m.blob.foldl (· + ·) 0⟩
      ⟨[7], fun _ l r => ⟨99, l.blob ++ r.blob⟩,
       fun p l r _ => p ++ l.data ++ r.data⟩ [0] 1 2 (-1)
      [((1 : Int), stored_t.mk 4 ⟨⟨2, [4]⟩, [10]⟩),
       ((2 : Int), stored_t.mk 8 ⟨⟨3, [8]⟩, [20, 21]⟩)]
      (stored_t.mk 4 ⟨⟨2, [4]⟩, [10]⟩) (stored_t.mk 8 ⟨⟨3, [8]⟩, [20, 21]⟩)
      (by decide) (by decide)).1⟩

end bbts
